import Mathlib

set_option linter.unusedVariables false

namespace PostgresPlayground

/-! Shallow embedding of `roguh/postgres_playground`.

The repository is a Go playground around `pgx`/PostgreSQL.  The pieces the
claims are about:

* `pkg/database/connection.go` — `NewPool`, `WithTx` (transaction wrapper);
* `examples/04_advanced_patterns.go` — advisory-lock and LISTEN/NOTIFY demos;
* the batch-operations example (`src/prompt-2-timescale.md`) — multi-row
  insert, `CopyFrom`, pipeline mode, `CREATE TEMP TABLE ... ON COMMIT DROP`;
* the seeder (`src/unnamed/part_001`).

Where the deciding behaviour lives in PostgreSQL or in the `pgx`/`pgxpool`
library rather than in this repository, the corresponding definition is
marked `Modelled from the spec:` and follows the specification's words.
-/

/-! ## Go error values

Go errors built with `fmt.Errorf`.  A `%w` verb makes the argument the
wrapped cause (recoverable via `errors.Unwrap`); a `%v` verb only renders the
argument into the message.  `connection.go` uses exactly one mixed form,
`fmt.Errorf("rollback failed: %v, original error: %w", rbErr, err)`:
`rbErr` is rendered (kept here as a payload) while `err` is the cause.
-/

/-- The fixed format strings used by `connection.go` when wrapping with
a single `%w` verb. -/
inductive WrapMsg where
  | beginTx        -- "begin tx: %w"
  | commitFailed   -- "commit failed: %w"
  | parseConfig    -- "parse config: %w"
  | createPool     -- "create pool: %w"
  | pingDatabase   -- "ping database: %w"
deriving DecidableEq, Repr

/-- A Go error value: either a base error (identified by a tag) or an error
produced by `fmt.Errorf`.  `wrapWithRollback rb cause` models
`fmt.Errorf("rollback failed: %v, original error: %w", rb, cause)`:
`rb` is carried in the message, `cause` is the `%w`-wrapped cause. -/
inductive GoErr where
  | base (tag : Nat)
  | wrap (msg : WrapMsg) (cause : GoErr)
  | wrapWithRollback (rbErr : GoErr) (cause : GoErr)
deriving DecidableEq, Repr

/-- The chain visited by repeated `errors.Unwrap`, starting at the error
itself: `%w` arguments are in the chain, `%v` arguments are not. -/
def GoErr.unwrapChain : GoErr → List GoErr
  | .base t => [.base t]
  | .wrap m c => .wrap m c :: c.unwrapChain
  | .wrapWithRollback rb c => .wrapWithRollback rb c :: c.unwrapChain

/-! ## `WithTx` (`pkg/database/connection.go` lines 117–142)

```go
func WithTx(ctx context.Context, pool *Pool, fn func(pgx.Tx) error) error {
    tx, err := pool.Begin(ctx)
    if err != nil { return fmt.Errorf("begin tx: %w", err) }
    defer func() {
        if p := recover(); p != nil { _ = tx.Rollback(ctx); panic(p) }
    }()
    if err := fn(tx); err != nil {
        if rbErr := tx.Rollback(ctx); rbErr != nil {
            return fmt.Errorf("rollback failed: %v, original error: %w", rbErr, err)
        }
        return err
    }
    if err := tx.Commit(ctx); err != nil { return fmt.Errorf("commit failed: %w", err) }
    return nil
}
```

The datastore's responses (does `Begin`/`Rollback`/`Commit` fail?) and the
behaviour of `fn` (return nil, return an error, or panic) are the
environment; `WithTx` is a pure function of that environment returning its
outcome together with the trace of transaction operations it performed. -/

/-- What the caller-supplied `fn` does when invoked. -/
inductive FnOutcome where
  | ok
  | err (e : GoErr)
  | panics (p : Nat)
deriving DecidableEq, Repr

/-- The environment of one `WithTx` call: the outcome of each datastore
operation (`none` = success) and the behaviour of `fn`. -/
structure TxEnv where
  beginErr : Option GoErr
  fnOutcome : FnOutcome
  rollbackErr : Option GoErr
  commitErr : Option GoErr
deriving DecidableEq, Repr

/-- Transaction-level operations `WithTx` performs, in order. -/
inductive TxAction where
  | beginTx
  | callFn
  | rollback
  | commit
deriving DecidableEq, Repr

/-- How one `WithTx` call ends. -/
inductive TxResult where
  | ok
  | err (e : GoErr)
  | panicked (p : Nat)
deriving DecidableEq, Repr

/-- Shallow embedding of `WithTx`: outcome plus trace of performed
transaction operations. -/
def WithTx (env : TxEnv) : TxResult × List TxAction :=
  match env.beginErr with
  | some e => (.err (.wrap .beginTx e), [.beginTx])
  | none =>
    match env.fnOutcome with
    | .panics p => (.panicked p, [.beginTx, .callFn, .rollback])
    | .err e =>
      match env.rollbackErr with
      | some rbErr =>
          (.err (.wrapWithRollback rbErr e), [.beginTx, .callFn, .rollback])
      | none => (.err e, [.beginTx, .callFn, .rollback])
    | .ok =>
      match env.commitErr with
      | some e => (.err (.wrap .commitFailed e), [.beginTx, .callFn, .commit])
      | none => (.ok, [.beginTx, .callFn, .commit])

/-- C1: once the transaction has begun, `WithTx` invokes `fn`; if `fn`
returns nil it commits (and never rolls back); if `fn` returns an error it
rolls back (and never commits); if `fn` panics it rolls back and re-raises
the same panic value. -/
theorem withTx_commit_rollback_panic (env : TxEnv) (h : env.beginErr = none) :
    TxAction.beginTx ∈ (WithTx env).2 ∧
    TxAction.callFn ∈ (WithTx env).2 ∧
    (env.fnOutcome = .ok →
      TxAction.commit ∈ (WithTx env).2 ∧ TxAction.rollback ∉ (WithTx env).2) ∧
    (∀ e, env.fnOutcome = .err e →
      TxAction.rollback ∈ (WithTx env).2 ∧ TxAction.commit ∉ (WithTx env).2) ∧
    (∀ p, env.fnOutcome = .panics p →
      TxAction.rollback ∈ (WithTx env).2 ∧ TxAction.commit ∉ (WithTx env).2 ∧
      (WithTx env).1 = .panicked p) := by
  obtain ⟨b, fo, rb, co⟩ := env
  simp only at h
  subst h
  cases fo with
  | ok =>
      cases co <;> simp [WithTx]
  | err e =>
      cases rb <;> simp [WithTx]
  | panics p =>
      simp [WithTx]

/-- Witness for C1 at a concrete environment (begin succeeds, `fn` returns
nil, commit succeeds). -/
theorem withTx_commit_rollback_panic_witness :
    (TxEnv.mk none .ok none none).beginErr = none ∧
    TxAction.commit ∈ (WithTx (TxEnv.mk none .ok none none)).2 :=
  ⟨rfl, ((withTx_commit_rollback_panic (TxEnv.mk none .ok none none) rfl).2.2.1 rfl).1⟩

/-- C2: whenever `fn` returns error `e`, the error `WithTx` returns has `e`
in its unwrap chain; when rollback itself also fails with `rb`, the returned
error is `wrapWithRollback rb e` — the rollback error is carried in the
message alongside `e`, and `e` is still the wrapped cause, never replaced. -/
theorem withTx_preserves_original_error (env : TxEnv) (e : GoErr)
    (hb : env.beginErr = none) (hf : env.fnOutcome = .err e) :
    ∃ e2, (WithTx env).1 = .err e2 ∧ e ∈ e2.unwrapChain ∧
      (env.rollbackErr = none → e2 = e) ∧
      (∀ rb, env.rollbackErr = some rb → e2 = .wrapWithRollback rb e) := by
  obtain ⟨b, fo, rb, co⟩ := env
  simp only at hb hf
  subst hb hf
  cases rb with
  | none => exact ⟨e, by simp [WithTx], by cases e <;> simp [GoErr.unwrapChain], by simp, by simp⟩
  | some r =>
      refine ⟨.wrapWithRollback r e, by simp [WithTx], ?_, by simp, by simp⟩
      cases e <;> simp [GoErr.unwrapChain]

/-- Witness for C2 at a concrete environment: `fn` fails with error tag 7
and the rollback also fails with error tag 9. -/
theorem withTx_preserves_original_error_witness :
    (TxEnv.mk none (.err (.base 7)) (some (.base 9)) none).beginErr = none ∧
    (TxEnv.mk none (.err (.base 7)) (some (.base 9)) none).fnOutcome = .err (.base 7) ∧
    ∃ e2, (WithTx (TxEnv.mk none (.err (.base 7)) (some (.base 9)) none)).1 = .err e2 ∧
      GoErr.base 7 ∈ e2.unwrapChain ∧
      ((TxEnv.mk none (.err (.base 7)) (some (.base 9)) none).rollbackErr = none →
        e2 = .base 7) ∧
      (∀ rb, (TxEnv.mk none (.err (.base 7)) (some (.base 9)) none).rollbackErr = some rb →
        e2 = .wrapWithRollback rb (.base 7)) :=
  ⟨rfl, rfl,
    withTx_preserves_original_error (TxEnv.mk none (.err (.base 7)) (some (.base 9)) none)
      (.base 7) rfl rfl⟩

/-! ## Advisory locks (`examples/04_advanced_patterns.go` lines 226–281)

The demo `advisoryLocksDemo` has five workers race on one connection each:
each calls `SELECT pg_try_advisory_lock($1)` with `lockID = 12345`, and the
holder later calls `SELECT pg_advisory_unlock($1)`.  The single-holder
semantics itself is enforced by PostgreSQL, not by code in this repository.
-/

/-- Modelled from the spec: the datastore-side advisory-lock state (spec §3
`LockToken`, §4.5, §9) — the repository contains only the demo caller.  The
state maps each 64-bit key to its current holder's connection, `none` when
free; "at most one holder per key at any instant" is the shape of this
state.  Concurrent `tryAcquire` calls on one key are serialized by the
datastore, so a race is any interleaving order. -/
def LockState : Type := Int → Option Nat

/-- Modelled from the spec: `pg_try_advisory_lock` — non-blocking; succeeds
and records the calling connection as holder iff the key is free, otherwise
returns false and changes nothing. -/
def pgTryAdvisoryLock (st : LockState) (conn : Nat) (key : Int) :
    Bool × LockState :=
  match st key with
  | none => (true, fun k => if k = key then some conn else st k)
  | some _ => (false, st)

/-- Modelled from the spec: `pg_advisory_unlock` — releases the key iff the
calling connection is the holder. -/
def pgAdvisoryUnlock (st : LockState) (conn : Nat) (key : Int) : LockState :=
  if st key = some conn then (fun k => if k = key then none else st k) else st

/-- C3: from a state where `key` is free, when connections `a` and `b` race
to `tryAcquire` the same key, the first wins and the second fails while the
first still holds it (exactly one `true`); after the holder releases, a
subsequent `tryAcquire` by either connection succeeds.  Mutual exclusion is
also stated directly: a `tryAcquire` never succeeds while another connection
holds the key. -/
theorem advisory_lock_single_holder (st : LockState) (key : Int) (a b : Nat)
    (hfree : st key = none) :
    (pgTryAdvisoryLock st a key).1 = true ∧
    (pgTryAdvisoryLock (pgTryAdvisoryLock st a key).2 b key).1 = false ∧
    (pgTryAdvisoryLock
      (pgAdvisoryUnlock (pgTryAdvisoryLock (pgTryAdvisoryLock st a key).2 b key).2 a key)
      b key).1 = true ∧
    (pgTryAdvisoryLock
      (pgAdvisoryUnlock (pgTryAdvisoryLock (pgTryAdvisoryLock st a key).2 b key).2 a key)
      a key).1 = true ∧
    (∀ (st2 : LockState) (c h : Nat), st2 key = some h → h ≠ c →
      (pgTryAdvisoryLock st2 c key).1 = false) := by
  refine ⟨?_, ?_, ?_, ?_, ?_⟩
  · simp [pgTryAdvisoryLock, hfree]
  · simp [pgTryAdvisoryLock, hfree]
  · simp [pgTryAdvisoryLock, pgAdvisoryUnlock, hfree]
  · simp [pgTryAdvisoryLock, pgAdvisoryUnlock, hfree]
  · intro st2 c h hh _
    simp [pgTryAdvisoryLock, hh]

/-- Witness for C3 at the demo's concrete key 12345, connections 0 and 1,
starting from the all-free lock table. -/
theorem advisory_lock_single_holder_witness :
    ((fun _ => none : LockState) 12345 = none) ∧
    (pgTryAdvisoryLock (fun _ => none) 0 12345).1 = true ∧
    (pgTryAdvisoryLock (pgTryAdvisoryLock (fun _ => none) 0 12345).2 1 12345).1 = false :=
  ⟨rfl,
    (advisory_lock_single_holder (fun _ => none) 12345 0 1 rfl).1,
    (advisory_lock_single_holder (fun _ => none) 12345 0 1 rfl).2.1⟩

/-! ## Connection-pool exhaustion (spec §4.1, §8; `connection.go` lines 47–87)

`NewPool` configures `pgxpool` with `MaxConns`/`MinConns`; the acquisition
semantics (bounded ceiling, blocking wait, timeout) lives inside `pgxpool`,
outside this repository. -/

/-- Outcome of an acquisition request: a leased connection, or the distinct
`PoolExhausted` error after the caller's deadline. -/
inductive AcqOutcome where
  | acquired (r : Nat)
  | poolExhausted (r : Nat)
deriving DecidableEq, Repr

/-- Modelled from the spec: the pool's observable state (spec §4.1) —
a fixed maximum ceiling, the number of connections currently leased, and the
queue of requests blocked waiting for a connection. -/
structure PoolState where
  maxConns : Nat
  inUse : Nat
  waiting : List Nat
deriving DecidableEq, Repr

/-- Events in a pool run: a request arrives, a leased connection is
released, or a waiting request reaches its deadline. -/
inductive PoolOp where
  | request (r : Nat)
  | release
  | timeoutFires (r : Nat)
deriving DecidableEq, Repr

/-- Modelled from the spec: one pool transition (spec §4.1, §8).  A request
is granted immediately when a connection is free, otherwise it blocks in the
wait queue; a release hands the connection to the longest-waiting request if
any; a deadline expiring for a still-waiting request removes it and reports
`PoolExhausted`.  No transition ever creates a connection beyond the
ceiling. -/
def poolStep (st : PoolState) : PoolOp → PoolState × Option AcqOutcome
  | .request r =>
    if st.inUse < st.maxConns then
      ({ st with inUse := st.inUse + 1 }, some (.acquired r))
    else
      ({ st with waiting := st.waiting ++ [r] }, none)
  | .release =>
    match st.waiting with
    | w :: rest => ({ st with waiting := rest }, some (.acquired w))
    | [] => ({ st with inUse := st.inUse - 1 }, none)
  | .timeoutFires r =>
    if r ∈ st.waiting then
      ({ st with waiting := st.waiting.erase r }, some (.poolExhausted r))
    else (st, none)

/-- Run a sequence of pool events, collecting the outcomes reported. -/
def runPool (st : PoolState) : List PoolOp → PoolState × List AcqOutcome
  | [] => (st, [])
  | op :: ops =>
    let s1 := poolStep st op
    let s2 := runPool s1.1 ops
    (s2.1, s1.2.toList ++ s2.2)

/-- The spec's §8 exhaustion scenario: max=2, five concurrent acquisitions. -/
def poolScenarioStart : PoolState := { maxConns := 2, inUse := 0, waiting := [] }

/-- The five concurrent requests of the §8 scenario. -/
def fiveRequests : List PoolOp :=
  [.request 1, .request 2, .request 3, .request 4, .request 5]

/-- C4: the pool never exceeds its ceiling — for every start state within
the ceiling and every event sequence, the ceiling is unchanged and `inUse`
stays within it — and in the §8 scenario (max=2, five requests) exactly the
first two are granted immediately, the rest block; each blocked request then
either fails with `PoolExhausted` when its deadline fires, or is granted
after a release — never left hanging with no transition. -/
theorem pool_bounded_and_exhaustion
    (st : PoolState) (ops : List PoolOp) (h : st.inUse ≤ st.maxConns) :
    ((runPool st ops).1.maxConns = st.maxConns ∧
      (runPool st ops).1.inUse ≤ (runPool st ops).1.maxConns) ∧
    runPool poolScenarioStart fiveRequests =
      ({ maxConns := 2, inUse := 2, waiting := [3, 4, 5] },
        [.acquired 1, .acquired 2]) ∧
    (runPool poolScenarioStart
        (fiveRequests ++ [.timeoutFires 3, .timeoutFires 4, .timeoutFires 5])).2 =
      [.acquired 1, .acquired 2, .poolExhausted 3, .poolExhausted 4, .poolExhausted 5] ∧
    (runPool poolScenarioStart (fiveRequests ++ [.release])).2 =
      [.acquired 1, .acquired 2, .acquired 3] := by
  refine ⟨?_, by decide, by decide, by decide⟩
  induction ops generalizing st with
  | nil => exact ⟨rfl, h⟩
  | cons op ops ih =>
    have hstep : (poolStep st op).1.maxConns = st.maxConns ∧
        (poolStep st op).1.inUse ≤ (poolStep st op).1.maxConns := by
      cases op with
      | request r =>
        by_cases hlt : st.inUse < st.maxConns
        · simp [poolStep, hlt]
          omega
        · simp [poolStep, hlt, h]
      | release =>
        cases hw : st.waiting with
        | nil => simp [poolStep, hw]; omega
        | cons w rest => simp [poolStep, hw, h]
      | timeoutFires r =>
        by_cases hm : r ∈ st.waiting
        · simp [poolStep, hm, h]
        · simp [poolStep, hm, h]
    have := ih (poolStep st op).1 hstep.2
    simp only [runPool]
    exact ⟨hstep.1 ▸ this.1, this.2⟩

/-- Witness for C4 at the empty two-connection pool and the five-request
scenario. -/
theorem pool_bounded_and_exhaustion_witness :
    poolScenarioStart.inUse ≤ poolScenarioStart.maxConns ∧
    (runPool poolScenarioStart fiveRequests).1.inUse ≤
      (runPool poolScenarioStart fiveRequests).1.maxConns :=
  ⟨by decide,
    (pool_bounded_and_exhaustion poolScenarioStart fiveRequests (by decide)).1.2⟩

/-! ## Pipelined batches (`batchWithPipeline` in the batch-operations example)

The example queues 100 statements on one connection's pipeline, calls
`Sync`, and then closes each result in turn, accumulating per-statement
outcomes (`tag, err := res.Close()`), with no retry of any statement.
Whether a mid-pipeline failure aborts the statements queued after it is
decided by the pgx/PostgreSQL pipeline protocol, outside this repository;
spec §9 resolves the ambiguity by letting remaining statements proceed. -/

/-- Modelled from the spec: pipeline execution (spec §4.3, §9 resolution) —
each queued statement runs to completion regardless of other statements'
failures; at the `Sync` point each statement is paired with its own result
from the `results` oracle, in issuance order, executed exactly once. -/
def drainPipeline (results : Nat → Option GoErr) : List Nat → List (Nat × Option GoErr)
  | [] => []
  | s :: rest => (s, results s) :: drainPipeline results rest

/-- The collection loop of `batchWithPipeline`/`batchInserts`: walk the
per-statement results once, counting successes; failed statements are
reported, never re-executed. -/
def collectResults (rs : List (Nat × Option GoErr)) : Nat :=
  rs.foldl (fun acc r => match r.2 with | none => acc + 1 | some _ => acc) 0

/-- C5: in a pipelined batch every queued statement reaches the sync point
with its own individually-reported result: the drained results list the
queued statements exactly once, in order, and the result at position `i` is
the `i`-th statement paired with that statement's own outcome — so the
outcome recorded for one statement is untouched by any other statement's
failure — and the batch writer performs no retries (each statement appears
exactly once in the results). -/
theorem pipeline_per_statement_results (results : Nat → Option GoErr)
    (queued : List Nat) :
    (drainPipeline results queued).length = queued.length ∧
    (drainPipeline results queued).map Prod.fst = queued ∧
    (∀ i : Nat, (drainPipeline results queued).get? i =
      (queued.get? i).map (fun s => (s, results s))) ∧
    (∀ s : Nat, ((drainPipeline results queued).map Prod.fst).count s =
      queued.count s) := by
  induction queued with
  | nil => exact ⟨rfl, rfl, fun i => by cases i <;> rfl, fun s => rfl⟩
  | cons q rest ih =>
    refine ⟨by simpa [drainPipeline] using ih.1, by simp [drainPipeline, ih.2.1], ?_, ?_⟩
    · intro i
      cases i with
      | zero => rfl
      | succ j => simpa [drainPipeline] using ih.2.2.1 j
    · intro s
      simp [drainPipeline, ih.2.1]

/-! ## Batch-write strategy selection (spec §4.3, §9)

The repository demonstrates the three strategies at fixed sizes — the
multi-row `INSERT ... VALUES` demo at 100 rows (`batchInserts`), `CopyFrom`
at 10,000 rows (`copyFromDemo`), pipeline mode for independent statements
(`batchWithPipeline`) — and its README records the thresholds
("Multi-value INSERT (fast for <1000 rows)", "COPY FROM for bulk loading");
no selection function exists in the source. -/

/-- The three write strategies of spec §4.3. -/
inductive WriteStrategy where
  | inlineInsert
  | streaming
  | pipelined
deriving DecidableEq, Repr

/-- Modelled from the spec: strategy selection (spec §4.3, §9) — a pure
function of the job's row count plus an optional explicit override; inline
multi-row insert below 1,000 rows, streaming bulk-load at 10,000 rows or
more.  The spec leaves 1,000–9,999 open; this model extends the inline
region up to the streaming threshold. -/
def selectStrategy (override : Option WriteStrategy) (rowCount : Nat) :
    WriteStrategy :=
  match override with
  | some s => s
  | none => if 10000 ≤ rowCount then .streaming else .inlineInsert

/-- Row count of the repository's inline multi-row insert demo
(`batchInserts`, 100 rows). -/
def inlineDemoRows : Nat := 100

/-- Row count of the repository's streaming bulk-load demo (`copyFromDemo`,
10,000 rows). -/
def copyDemoRows : Nat := 10000

/-- C6: with no explicit strategy, selection is the stated pure function of
the job's row count: below 1,000 rows the inline multi-row insert is chosen
and at 10,000 rows or more the streaming bulk-load is chosen; an explicit
override is always honoured; and the repository's demo sizes land on the
strategy their demo uses. -/
theorem selectStrategy_thresholds :
    (∀ n : Nat, n < 1000 → selectStrategy none n = .inlineInsert) ∧
    (∀ n : Nat, 10000 ≤ n → selectStrategy none n = .streaming) ∧
    (∀ (s : WriteStrategy) (n : Nat), selectStrategy (some s) n = s) ∧
    selectStrategy none inlineDemoRows = .inlineInsert ∧
    selectStrategy none copyDemoRows = .streaming := by
  refine ⟨?_, ?_, fun s n => rfl, by decide, by decide⟩
  · intro n hn
    have : ¬ 10000 ≤ n := by omega
    simp [selectStrategy, this]
  · intro n hn
    simp [selectStrategy, hn]

/-- Witness for C6 at concrete row counts 100 and 10,000. -/
theorem selectStrategy_thresholds_witness :
    (100 < 1000 ∧ selectStrategy none 100 = .inlineInsert) ∧
    (10000 ≤ 10000 ∧ selectStrategy none 10000 = .streaming) :=
  ⟨⟨by decide, selectStrategy_thresholds.1 100 (by decide)⟩,
    ⟨by decide, selectStrategy_thresholds.2.1 10000 (by decide)⟩⟩

/-! ## LISTEN/NOTIFY delivery (`examples/04_advanced_patterns.go` lines 186–203)

`listenNotifyDemo` drains notifications from one dedicated listening
connection in arrival order and pushes them into a bounded Go channel
(`make(chan *pgconn.Notification, 5)`) consumed by a local listener.  A Go
channel is a FIFO queue; a send on a full channel blocks.  Events are
identified by their arrival order; a bus state tracks the events the
datastore has emitted but not yet enqueued, the subscriber's bounded queue,
and the events already delivered to the listener. -/

/-- State of one subscriber's delivery path. -/
structure BusState where
  pending : List Nat
  queue : List Nat
  delivered : List Nat
deriving DecidableEq, Repr

/-- One step of the delivery system with per-subscriber queue capacity
`cap`: the draining goroutine enqueues the next emitted event only when the
queue is below capacity (a send on a full channel blocks — nothing is
dropped), or the listener dequeues the front event. -/
inductive BusStep (cap : Nat) : BusState → BusState → Prop where
  | enqueue (e : Nat) (p q d : List Nat) (h : q.length < cap) :
      BusStep cap ⟨e :: p, q, d⟩ ⟨p, q ++ [e], d⟩
  | deliver (e : Nat) (p q d : List Nat) :
      BusStep cap ⟨p, e :: q, d⟩ ⟨p, q, d ++ [e]⟩

/-- Zero or more bus steps. -/
inductive BusReaches (cap : Nat) : BusState → BusState → Prop where
  | refl (st : BusState) : BusReaches cap st st
  | step (a b c : BusState) : BusStep cap a b → BusReaches cap b c →
      BusReaches cap a c

/-- Every bus step preserves the full event sequence
`delivered ++ queue ++ pending` and keeps the queue within capacity. -/
theorem busStep_invariant (cap : Nat) (a b : BusState) (h : BusStep cap a b) :
    b.delivered ++ b.queue ++ b.pending = a.delivered ++ a.queue ++ a.pending ∧
    (a.queue.length ≤ cap → b.queue.length ≤ cap) := by
  cases h with
  | enqueue e p q d hlt => refine ⟨by simp, fun _ => by simpa using hlt⟩
  | deliver e p q d =>
      refine ⟨by simp, fun hle => ?_⟩
      simp only [List.length_cons] at hle
      simpa using Nat.le_of_succ_le hle

/-- C7: for a subscriber that stays connected, every state reachable from
"the datastore emitted `events`, nothing enqueued or delivered yet" keeps
the delivered, queued and still-pending events a partition of `events` in
order — so the listener receives events in exactly emission order (the
delivered list extends to `events`), none dropped or reordered — the queue
never exceeds its capacity, and a step from a full queue cannot consume a
pending event: delivery blocks rather than drops. -/
theorem bus_in_order_bounded_blocking (cap : Nat) (events : List Nat)
    (st : BusState) (h : BusReaches cap ⟨events, [], []⟩ st) :
    st.delivered ++ st.queue ++ st.pending = events ∧
    (∃ rest, st.delivered ++ rest = events) ∧
    st.queue.length ≤ cap ∧
    (∀ a b : BusState, BusStep cap a b → a.queue.length = cap →
      b.pending = a.pending) := by
  have main : ∀ a b : BusState, BusReaches cap a b →
      (a.delivered ++ a.queue ++ a.pending =
        b.delivered ++ b.queue ++ b.pending) ∧
      (a.queue.length ≤ cap → b.queue.length ≤ cap) := by
    intro a b hr
    induction hr with
    | refl st => exact ⟨rfl, fun h => h⟩
    | step a b c hab hbc ih =>
        have hs := busStep_invariant cap a b hab
        exact ⟨hs.1 ▸ ih.1, fun hle => ih.2 (hs.2 hle)⟩
  have hm := main ⟨events, [], []⟩ st h
  have heq : st.delivered ++ st.queue ++ st.pending = events := by
    simpa using hm.1.symm
  refine ⟨heq, ⟨st.queue ++ st.pending, by simpa [List.append_assoc] using heq⟩,
    hm.2 (by simp), ?_⟩
  intro a b hstep hfull
  cases hstep with
  | enqueue e p q d hlt =>
      exfalso
      have hq : q.length = cap := hfull
      omega
  | deliver e p q d => rfl

/-- Witness for C7: queue capacity 5 (the demo's channel size), two emitted
events, a concrete run that enqueues both and delivers the first. -/
theorem bus_in_order_bounded_blocking_witness :
    BusReaches 5 ⟨[10, 20], [], []⟩ ⟨[], [20], [10]⟩ ∧
    ([10] : List Nat) ++ [20] ++ [] = [10, 20] ∧
    (∃ rest, ([10] : List Nat) ++ rest = [10, 20]) := by
  have hrun : BusReaches 5 ⟨[10, 20], [], []⟩ ⟨[], [20], [10]⟩ :=
    .step _ ⟨[20], [10], []⟩ _ (.enqueue 10 [20] [] [] (by decide))
      (.step _ ⟨[], [10, 20], []⟩ _ (.enqueue 20 [] [10] [] (by decide))
        (.step _ ⟨[], [20], [10]⟩ _ (.deliver 10 [] [20] []) (.refl _)))
  have hth := bus_in_order_bounded_blocking 5 [10, 20] ⟨[], [20], [10]⟩ hrun
  exact ⟨hrun, hth.1, hth.2.1⟩

/-! ## Staging temp table (`batchUpdates`, batch-operations example)

Method 3 of `batchUpdates` runs, inside `WithTx`:
`CREATE TEMP TABLE batch_updates (...) ON COMMIT DROP`, a batch of 30
inserts into it, and one `UPDATE sites ... FROM batch_updates` join — and no
explicit `DROP`.  The automatic drop is PostgreSQL semantics: a temp table
declared `ON COMMIT DROP` is dropped when the transaction commits, and a
rollback undoes its creation. -/

/-- Table names touched by the staging path (the staging table
`batch_updates` and the target `sites`, plus arbitrary others). -/
inductive TableName where
  | sites
  | assets
  | batchUpdatesStaging
  | other (n : Nat)
deriving DecidableEq, Repr

/-- The statements of a transaction body, at the granularity the staging
claim needs: creating a temp table with `ON COMMIT DROP`, an explicit
`DROP TABLE`, or DML that touches no table's existence. -/
inductive TxStmt where
  | createTempOnCommitDrop (n : TableName)
  | dropTable (n : TableName)
  | dml (descr : Nat)
deriving DecidableEq, Repr

/-- A session in an open transaction: the tables existing outside the
transaction, and the temp tables created inside it (flag: declared
`ON COMMIT DROP`). -/
structure TxSession where
  baseTables : List TableName
  txTemp : List (TableName × Bool)
deriving DecidableEq, Repr

/-- Modelled from the spec: PostgreSQL's table-existence effect of one
statement inside a transaction (spec §3 `StagingSet`, §4.4) — a temp-table
creation is recorded transaction-side; an explicit drop removes the table
wherever it lives; DML changes no table's existence. -/
def execTxStmt (st : TxSession) : TxStmt → TxSession
  | .createTempOnCommitDrop n => { st with txTemp := st.txTemp ++ [(n, true)] }
  | .dropTable n =>
      { baseTables := st.baseTables.filter (fun t => t ≠ n),
        txTemp := st.txTemp.filter (fun p => p.1 ≠ n) }
  | .dml _ => st

/-- Execute a transaction body. -/
def execTx (st : TxSession) (stmts : List TxStmt) : TxSession :=
  stmts.foldl execTxStmt st

/-- Modelled from the spec: tables that survive a COMMIT — the outside
tables plus any temp table not declared `ON COMMIT DROP`. -/
def commitTables (st : TxSession) : List TableName :=
  st.baseTables ++ (st.txTemp.filter (fun p => !p.2)).map Prod.fst

/-- Modelled from the spec: tables that survive a ROLLBACK — the
transaction's creations are undone. -/
def rollbackTables (st : TxSession) : List TableName := st.baseTables

/-- The transaction body of `batchUpdates` method 3, from the source: create
the staging temp table `ON COMMIT DROP`, populate it by a batch of inserts,
run the one join update against `sites` — and nothing else. -/
def batchUpdatesStmts : List TxStmt :=
  [.createTempOnCommitDrop .batchUpdatesStaging,
   .dml 0,
   .dml 1]

/-- C8: starting from any database in which the staging table does not
pre-exist, after running the `batchUpdates` transaction body the staging
table is absent from the surviving tables whether the transaction commits
or rolls back, and the body contains no explicit drop of any table — the
cleanup is entirely automatic and nothing leaks into later transactions. -/
theorem staging_table_never_outlives_tx (tables : List TableName)
    (h : TableName.batchUpdatesStaging ∉ tables) :
    TableName.batchUpdatesStaging ∉
      commitTables (execTx ⟨tables, []⟩ batchUpdatesStmts) ∧
    TableName.batchUpdatesStaging ∉
      rollbackTables (execTx ⟨tables, []⟩ batchUpdatesStmts) ∧
    (∀ n : TableName, TxStmt.dropTable n ∉ batchUpdatesStmts) := by
  have hexec : execTx ⟨tables, []⟩ batchUpdatesStmts =
      ⟨tables, [(.batchUpdatesStaging, true)]⟩ := rfl
  refine ⟨?_, ?_, ?_⟩
  · rw [hexec]
    simpa [commitTables] using h
  · rw [hexec]
    simpa [rollbackTables] using h
  · intro n
    simp [batchUpdatesStmts]

/-- Witness for C8 at the concrete schema of the repository: the `sites`
and `assets` tables, no pre-existing staging table. -/
theorem staging_table_never_outlives_tx_witness :
    TableName.batchUpdatesStaging ∉ [TableName.sites, TableName.assets] ∧
    TableName.batchUpdatesStaging ∉
      commitTables (execTx ⟨[TableName.sites, TableName.assets], []⟩ batchUpdatesStmts) :=
  ⟨by decide,
    (staging_table_never_outlives_tx [TableName.sites, TableName.assets]
      (by decide)).1⟩

/-! ## The seeder (`src/unnamed/part_001`, `main` and the seed functions)

```go
err = pool.QueryRow(ctx, "SELECT COUNT(*) FROM sites").Scan(&count)
if err != nil { log.Fatal(...) }
if count > 0 {
    log.Printf("Database already contains %d sites. ...", count)
    return
}
if err := seedSites(ctx, pool, 1000); err != nil { log.Fatal(...) }
if err := seedAssets(ctx, pool, 100000); err != nil { log.Fatal(...) }
```
-/

/-- Database state at the granularity the seeder observes: row counts of the
`sites` and `assets` tables. -/
structure SeedDB where
  sites : Nat
  assets : Nat
deriving DecidableEq, Repr

/-- What the seeder does, observably. -/
inductive SeedAction where
  | reportExisting (n : Nat)
  | insertSites (n : Nat)
  | insertAssets (n : Nat)
deriving DecidableEq, Repr

/-- `seedSites`: inserts `count` rows into `sites` (batched 100 at a time in
the source; the batching does not change the resulting counts). -/
def seedSites (db : SeedDB) (count : Nat) : SeedDB :=
  { db with sites := db.sites + count }

/-- `seedAssets`: fails with "no sites found" when `sites` is empty,
otherwise inserts `count` rows into `assets`. -/
def seedAssets (db : SeedDB) (count : Nat) : Except GoErr SeedDB :=
  if db.sites = 0 then .error (.base 0)
  else .ok { db with assets := db.assets + count }

/-- The seeder's `main`: count `sites`; if non-zero, report and exit without
touching anything; otherwise seed 1,000 sites then 100,000 assets.
Returns the final database state and the actions performed. -/
def seederMain (db : SeedDB) : SeedDB × List SeedAction :=
  if db.sites > 0 then (db, [.reportExisting db.sites])
  else
    let db1 := seedSites db 1000
    match seedAssets db1 100000 with
    | .error _ => (db1, [.insertSites 1000])
    | .ok db2 => (db2, [.insertSites 1000, .insertAssets 100000])

/-- C9: if `sites` holds at least one row when the seeder starts, it
performs no inserts at all — it reports the existing count and exits with
both tables unchanged; and when `sites` is empty, seeding proceeds
(1,000 sites then 100,000 assets). -/
theorem seeder_skips_when_nonempty (db : SeedDB) :
    (1 ≤ db.sites →
      seederMain db = (db, [.reportExisting db.sites]) ∧
      (seederMain db).1.sites = db.sites ∧
      (seederMain db).1.assets = db.assets ∧
      (∀ n, SeedAction.insertSites n ∉ (seederMain db).2) ∧
      (∀ n, SeedAction.insertAssets n ∉ (seederMain db).2)) ∧
    (db.sites = 0 →
      (seederMain db).1 = { sites := 1000, assets := db.assets + 100000 } ∧
      (seederMain db).2 = [.insertSites 1000, .insertAssets 100000]) := by
  constructor
  · intro h
    have hpos : db.sites > 0 := h
    have hmain : seederMain db = (db, [.reportExisting db.sites]) := by
      simp [seederMain, hpos]
    refine ⟨hmain, by rw [hmain], by rw [hmain], ?_, ?_⟩
    · intro n
      rw [hmain]
      simp
    · intro n
      rw [hmain]
      simp
  · intro h
    obtain ⟨s, a⟩ := db
    simp only at h
    subst h
    constructor <;> rfl

/-- Witness for C9 at a database already holding 5 sites and 7 assets, and
at the empty database. -/
theorem seeder_skips_when_nonempty_witness :
    (1 ≤ (SeedDB.mk 5 7).sites ∧
      seederMain (SeedDB.mk 5 7) = (SeedDB.mk 5 7, [.reportExisting 5])) ∧
    ((SeedDB.mk 0 0).sites = 0 ∧
      (seederMain (SeedDB.mk 0 0)).2 = [.insertSites 1000, .insertAssets 100000]) :=
  ⟨⟨by decide, ((seeder_skips_when_nonempty (SeedDB.mk 5 7)).1 (by decide)).1⟩,
    ⟨rfl, ((seeder_skips_when_nonempty (SeedDB.mk 0 0)).2 rfl).2⟩⟩

/-! ## `NewPool` (`pkg/database/connection.go` lines 47–87)

```go
poolConfig, err := pgxpool.ParseConfig(dsn)
if err != nil { return nil, fmt.Errorf("parse config: %w", err) }
...
pool, err := pgxpool.NewWithConfig(ctx, poolConfig)
if err != nil { return nil, fmt.Errorf("create pool: %w", err) }
if err := pool.Ping(ctx); err != nil {
    pool.Close()
    return nil, fmt.Errorf("ping database: %w", err)
}
return &Pool{Pool: pool, config: cfg}, nil
```
-/

/-- The environment of one `NewPool` call: the outcome of config parsing,
pool construction, and the connectivity ping (`none` = success). -/
structure NewPoolEnv where
  parseErr : Option GoErr
  createErr : Option GoErr
  pingErr : Option GoErr
deriving DecidableEq, Repr

/-- The operations `NewPool` performs, in order. -/
inductive PoolAction where
  | parseConfig
  | createPool
  | ping
  | closePool
deriving DecidableEq, Repr

/-- Shallow embedding of `NewPool`: the returned `(pool, error)` pair
(`true` stands for a non-nil `*Pool`) plus the trace of performed
operations. -/
def NewPool (env : NewPoolEnv) : (Bool × Option GoErr) × List PoolAction :=
  match env.parseErr with
  | some e => ((false, some (.wrap .parseConfig e)), [.parseConfig])
  | none =>
    match env.createErr with
    | some e => ((false, some (.wrap .createPool e)), [.parseConfig, .createPool])
    | none =>
      match env.pingErr with
      | some e =>
          ((false, some (.wrap .pingDatabase e)),
            [.parseConfig, .createPool, .ping, .closePool])
      | none => ((true, none), [.parseConfig, .createPool, .ping])

/-- C10: `NewPool` returns a non-nil pool exactly when parsing, pool
construction and the connectivity ping all succeeded; the pool handle and
the error are mutually exclusive (never both, never neither); and on the
failure path after the underlying pool exists — a failed ping — the pool is
closed before the error is returned, so no live pool leaks. -/
theorem newPool_no_leak (env : NewPoolEnv) :
    ((NewPool env).1.1 = true ↔
      env.parseErr = none ∧ env.createErr = none ∧ env.pingErr = none) ∧
    ((NewPool env).1.1 = true ↔ (NewPool env).1.2 = none) ∧
    (∀ e, env.parseErr = none → env.createErr = none → env.pingErr = some e →
      PoolAction.closePool ∈ (NewPool env).2) ∧
    ((NewPool env).1.1 = true → PoolAction.closePool ∉ (NewPool env).2) := by
  obtain ⟨pe, ce, gi⟩ := env
  cases pe <;> cases ce <;> cases gi <;> simp [NewPool]

/-- Witness for C10: a failed ping closes the freshly created pool; a fully
successful run returns the pool and no error. -/
theorem newPool_no_leak_witness :
    ((NewPoolEnv.mk none none (some (.base 3))).parseErr = none ∧
      (NewPoolEnv.mk none none (some (.base 3))).createErr = none ∧
      (NewPoolEnv.mk none none (some (.base 3))).pingErr = some (.base 3) ∧
      PoolAction.closePool ∈ (NewPool (NewPoolEnv.mk none none (some (.base 3)))).2) ∧
    ((NewPool (NewPoolEnv.mk none none none)).1.1 = true ↔
      (NewPool (NewPoolEnv.mk none none none)).1.2 = none) :=
  ⟨⟨rfl, rfl, rfl,
      (newPool_no_leak (NewPoolEnv.mk none none (some (.base 3)))).2.2.1
        (.base 3) rfl rfl rfl⟩,
    (newPool_no_leak (NewPoolEnv.mk none none none)).2.1⟩

end PostgresPlayground
